import Mathlib

/-!
Verification development for the invoice generator (`app.py`).

The program fills a `.docx` invoice template from a row of named fields,
computes per-line subtotals and a grand total, formats amounts in the
Indonesian style (periods as thousands separators) and optionally emails
the rendered PDF per selected row.

This file gives a shallow embedding of the program's pure core:

* `pyReplace` models Python's `str.replace` (left-to-right, non-overlapping);
* `replace_in_paragraph` models `_replace_in_paragraph`: a paragraph is the
  list of its runs' texts, matching happens on the concatenated text, and on
  a change the first run receives the substituted text while the others are
  blanked;
* `pyFloatChars` models `float(...)` on decimal numerals (sign, digits,
  optional fractional part and exponent).  Finite numbers are modelled as
  exact rationals; `pyFloatDouble` adds the double-range overflow of huge
  numerals to `±inf`.  `inf`/`nan` literals, underscore numerals and the
  silent precision loss of finite binary floats are outside the model;
* `fmt_idr_checked` and `to_terbilang_checked` model the exception
  behaviour of the two helpers: `except (ValueError, TypeError)` does not
  catch the `OverflowError` that `round`/`float` raise on infinite floats
  and out-of-range ints, so those paths surface as `Except.error`;
* `fmt_idr`, `to_terbilang`, `safe` model the helpers of the same names
  (the `num2words` library is an external collaborator and is modelled as
  an abstract fallible conversion argument);
* `lineSub`, `totalCalc`, `replacementsOf` model the calculated columns and
  the placeholder map built by `generate_pdf`;
* `processBatch` models the per-row loop behind "Generate & Send Emails".

Cells of a row are modelled by the string `str(v)` produces for them, with
`none` standing for a pandas `NaN`; an absent column behaves like `row.get`
with the `""` default.
-/

/-- Characters of a string; all string manipulation below happens on
`List Char` so that everything reduces in the kernel. -/
def chars (s : String) : List Char := s.toList

/-- One scanning step of Python's `str.replace`: `skip` counts characters
still to be consumed by the previously matched pattern occurrence. -/
def pyrAux (pat rep : List Char) : List Char → Nat → List Char
  | [], _ => []
  | _ :: cs, skip + 1 => pyrAux pat rep cs skip
  | c :: cs, 0 =>
    if pat.isPrefixOf (c :: cs) ∧ pat ≠ [] then
      rep ++ pyrAux pat rep cs (pat.length - 1)
    else
      c :: pyrAux pat rep cs 0

/-- Python's `s.replace(pat, rep)` on character lists: replaces
non-overlapping occurrences left to right; an empty pattern inserts `rep`
between all characters and at both ends, as in Python. -/
def pyReplace (s pat rep : List Char) : List Char :=
  if pat = [] then rep ++ s.flatMap (fun c => c :: rep)
  else pyrAux pat rep s 0

/-- Dropped characters stay dropped: scanning with a pending skip consumes
the skipped characters without emitting them. -/
theorem pyrAux_skip (pat rep : List Char) (cs : List Char) (k : Nat) :
    pyrAux pat rep cs (k + 1) = pyrAux pat rep (cs.drop (k + 1)) 0 := by
  induction cs generalizing k with
  | nil => simp [pyrAux]
  | cons c cs ih =>
    cases k with
    | zero => simp [pyrAux]
    | succ k => simpa [pyrAux] using ih k

/-- String-level wrapper for `pyReplace`, mirroring `s.replace(old, new)`. -/
def pyStrReplace (s pat rep : String) : String :=
  String.mk (pyReplace (chars s) (chars pat) (chars rep))

/-- Sequential application of a placeholder map (an association list in
insertion order) to one text buffer, as in the `for old, val in
replacements.items()` loop of `_replace_in_paragraph`. -/
def applyAllC (repl : List (List Char × List Char)) (s : List Char) : List Char :=
  repl.foldl (fun acc pr => pyReplace acc pr.1 pr.2) s

/-- Model of `_replace_in_paragraph`: a paragraph is the list of its runs'
texts; `full` is `paragraph.text` (the concatenation), all replacements are
applied to `full`, and only if the result changed and runs exist is the
first run overwritten and every other run blanked. -/
def replace_in_paragraph (repl : List (List Char × List Char))
    (runs : List (List Char)) : List (List Char) :=
  let full := runs.flatten
  let new := applyAllC repl full
  if new ≠ full ∧ runs ≠ [] then
    new :: runs.tail.map (fun _ => [])
  else
    runs

/-- Concatenating a list of blanked runs gives the empty text. -/
theorem flatten_blanks (l : List (List Char)) :
    (l.map (fun _ => ([] : List Char))).flatten = [] := by
  induction l with
  | nil => rfl
  | cons a t ih => simp [ih]

/-- The concatenated text of a paragraph with at least one run is, after
substitution, exactly the sequential substitution applied to the original
concatenated text. -/
theorem replace_in_paragraph_text (repl : List (List Char × List Char))
    (runs : List (List Char)) (h : runs ≠ []) :
    (replace_in_paragraph repl runs).flatten = applyAllC repl runs.flatten := by
  unfold replace_in_paragraph
  by_cases hne : applyAllC repl runs.flatten = runs.flatten
  · simp [hne]
  · simp only [ne_eq, hne, not_false_iff, h, and_self, if_pos, true_and]
    simp [flatten_blanks]

/-- Python's `str.strip()` (and the whitespace stripping `float` performs on
string input): drop whitespace from both ends. -/
def trimChars (l : List Char) : List Char :=
  ((l.dropWhile Char.isWhitespace).reverse.dropWhile Char.isWhitespace).reverse

/-- String-level `str.strip()`. -/
def pyStrip (s : String) : String := String.mk (trimChars (chars s))

/-- ASCII decimal digit test used by the numeral parser. -/
def isDig (c : Char) : Bool := 48 ≤ c.toNat && c.toNat ≤ 57

/-- Value of a big-endian digit-character list. -/
def charsToNat (l : List Char) : Nat :=
  l.foldl (fun a c => 10 * a + (c.toNat - 48)) 0

/-- Splits a leading `'-'`/`'+'` sign off a character list; `true` means
negative. -/
def splitSignC (l : List Char) : Bool × List Char :=
  match l with
  | [] => (false, [])
  | c :: r => if c = '-' then (true, r) else if c = '+' then (false, r) else (false, c :: r)

/-- Splits a list at the first character satisfying `p`: returns the part
before it and, when found, the part after it. -/
def splitFirst (p : Char → Bool) : List Char → List Char × Option (List Char)
  | [] => ([], none)
  | c :: cs =>
    if p c then ([], some cs)
    else
      let r := splitFirst p cs
      (c :: r.1, r.2)

/-- Exponent marker of a decimal numeral. -/
def isExpMark (c : Char) : Bool := c = 'e' || c = 'E'

/-- Signed integer value of the digits of a possibly signed digit string. -/
def signedVal (neg : Bool) (digits : List Char) : Int :=
  if neg then -(charsToNat digits : Int) else (charsToNat digits : Int)

/-- Exact value of a decimal numeral, as Python's `float(s)` accepts it:
optional surrounding whitespace, optional sign, digits with at most one
decimal point (at least one digit overall) and an optional `e`/`E`
exponent.  This is the mathematical value before the double range is
applied; the overflow of huge numerals to `±inf` is modelled on top by
`pyFloatDouble`.  `inf`/`nan` literals and underscore separators are
outside the modelled numeric domain. -/
def pyFloatChars (l : List Char) : Option Rat :=
  let t := trimChars l
  let sgn := splitSignC t
  let mant := splitFirst isExpMark sgn.2
  let ipfp := splitFirst (fun c => c = '.') mant.1
  let ip := ipfp.1
  let fp := (ipfp.2).getD []
  if (ip ++ fp).all isDig ∧ ip ++ fp ≠ [] then
    match mant.2 with
    | none =>
      if fp = [] then some ((signedVal sgn.1 ip : Int) : Rat)
      else some ((signedVal sgn.1 (ip ++ fp) : Rat) / (10 : Rat) ^ fp.length)
    | some ex =>
      let esgn := splitSignC ex
      if esgn.2.all isDig ∧ esgn.2 ≠ [] then
        some (((signedVal sgn.1 (ip ++ fp) : Rat) / (10 : Rat) ^ fp.length)
          * (10 : Rat) ^ (signedVal esgn.1 esgn.2))
      else none
  else none

/-- String-level `float(s)`. -/
def pyFloat (s : String) : Option Rat := pyFloatChars (chars s)

/-- Python's `round` on an exact rational: nearest integer, ties to even. -/
def pyRound (q : Rat) : Int :=
  let f : Int := ⌊q⌋
  if q - f < 1 / 2 then f
  else if (1 : Rat) / 2 < q - f then f + 1
  else if f % 2 = 0 then f else f + 1

/-- Python's `int()` truncation toward zero on an exact rational. -/
def pyInt (q : Rat) : Int := if q < 0 then ⌈q⌉ else ⌊q⌋

/-- Little-endian decimal digits, with explicit fuel to keep the recursion
structural (fuel `n` always suffices for `n` itself). -/
def natDigitsAux : Nat → Nat → List Nat
  | 0, _ => []
  | _ + 1, 0 => []
  | fuel + 1, n + 1 => ((n + 1) % 10) :: natDigitsAux fuel ((n + 1) / 10)

/-- Little-endian decimal digits of a natural number (empty for `0`). -/
def natDigits10 (n : Nat) : List Nat := natDigitsAux n n

/-- Character of one decimal digit. -/
def digitChar (d : Nat) : Char := Char.ofNat (48 + d)

/-- Big-endian digit characters of a natural number (`"0"` for `0`). -/
def natDigitChars (m : Nat) : List Char :=
  if m = 0 then ['0'] else ((natDigits10 m).map digitChar).reverse

/-- Python's `str` on an integer. -/
def intStr (n : Int) : String :=
  String.mk ((if n < 0 then ['-'] else []) ++ natDigitChars n.natAbs)

/-- Groups of at most three characters, taken from the front (used on the
reversed digit string, so groups count from the least significant digit). -/
def chunk3 : List Char → List (List Char)
  | [] => []
  | [a] => [[a]]
  | [a, b] => [[a, b]]
  | a :: b :: c :: rest => [a, b, c] :: chunk3 rest

/-- Joins chunks with a single separator character between them. -/
def joinSep (sep : Char) : List (List Char) → List Char
  | [] => []
  | [m] => m
  | m :: rest => m ++ sep :: joinSep sep rest

/-- Thousands grouping of a big-endian digit string, as in `f"{n:,}"`. -/
def group3 (sep : Char) (l : List Char) : List Char :=
  joinSep sep (((chunk3 l.reverse).map List.reverse).reverse)

/-- Characters of `f"{n:,}"` for an integer `n`. -/
def intCommaChars (n : Int) : List Char :=
  (if n < 0 then ['-'] else []) ++ group3 ',' (natDigitChars n.natAbs)

/-- Values `fmt_idr` can receive: a string cell, an exact number (covering
Python ints and the floats of the subtotal arithmetic), or `None`. -/
inductive PyVal where
  | vstr (s : String)
  | vnum (q : Rat)
  | vnone
deriving DecidableEq

/-- Python's `float(value)` on a `PyVal`; `None` raises `TypeError`, which
the caller catches, so it is mapped to `none` here. -/
def pyFloatVal : PyVal → Option Rat
  | .vstr s => pyFloat s
  | .vnum q => some q
  | .vnone => none

/-- Python's `str(value)` on a `PyVal` (only the string and `None` cases are
ever reached by the fallback path of `fmt_idr`). -/
def pyStr : PyVal → String
  | .vstr s => s
  | .vnum q => toString q
  | .vnone => "None"

/-- Model of `fmt_idr`: `f"{int(round(float(value))):,}".replace(",", ".")`,
falling back to `str(value)` when `float` raises `ValueError` or
`TypeError`.  This total function gives the value `fmt_idr` returns on its
non-raising paths (finite numeric values and the caught fallback), which is
all `generate_pdf` exercises on finite data; the uncaught `OverflowError`
path on infinite floats and out-of-range ints is modelled separately by
`fmt_idr_checked` below. -/
def fmt_idr (value : PyVal) : String :=
  match pyFloatVal value with
  | some q => String.mk (pyReplace (intCommaChars (pyRound q)) [','] ['.'])
  | none => pyStr value

/-- Python's `str.capitalize()`: first character upper-cased, the rest
lower-cased (ASCII model). -/
def pyCapitalize (s : String) : String :=
  match chars s with
  | [] => s
  | c :: r => String.mk (Char.toUpper c :: r.map Char.toLower)

/-- Model of `to_terbilang` on a finite total.  The `num2words(·,
lang="id")` call is an external library, modelled as an abstract conversion
`conv` that either produces the word string or fails (raises); on failure
the function falls back to `fmt_idr(total)`.  The behaviour on an infinite
total, where the fallback itself raises, is modelled by
`to_terbilang_checked` below. -/
def to_terbilang (conv : Int → Option String) (total : Rat) : String :=
  match conv (pyRound total) with
  | some w => pyCapitalize w ++ " rupiah"
  | none => fmt_idr (.vnum total)

/-- A Python float: a finite value (kept as an exact rational) or an
infinity.  `NaN` stays outside the modelled domain. -/
inductive PyFloat where
  | finite (q : Rat)
  | infty (neg : Bool)
deriving DecidableEq

/-- The smallest magnitude at which conversion to an IEEE double overflows:
the midpoint `2^1024 - 2^970` above the largest finite double rounds (ties
to even) up to `2^1024`, so every value of at least this magnitude becomes
`inf` when parsed from a string and raises `OverflowError` when converted
from an int. -/
def OVERFLOW_BOUND : Rat := 2 ^ 1024 - 2 ^ 970

/-- Python's `float(s)` with the double range modelled: a decimal numeral
whose exact value reaches `OVERFLOW_BOUND` in magnitude parses to `±inf`
(Python raises no error at this point), smaller values stay finite (kept
exact rather than rounded to 53 bits). -/
def pyFloatDouble (s : String) : Option PyFloat :=
  match pyFloat s with
  | none => none
  | some q =>
    if OVERFLOW_BOUND ≤ q then some (.infty false)
    else if q ≤ -OVERFLOW_BOUND then some (.infty true)
    else some (.finite q)

/-- A value as `fmt_idr` can receive it in the exception-aware model: a
string cell, a Python int, a float (finite or infinite), or `None`. -/
inductive PyValF where
  | vstr (s : String)
  | vint (n : Int)
  | vfloat (f : PyFloat)
  | vnone

/-- The string produced for a finite rounded value:
`f"{int(round(q)):,}".replace(",", ".")`. -/
def fmtFinite (q : Rat) : String :=
  String.mk (pyReplace (intCommaChars (pyRound q)) [','] ['.'])

/-- Exception-aware model of `fmt_idr`.  The `except (ValueError,
TypeError)` clause does not catch `OverflowError`, so two paths raise to
the caller (`Except.error` carries the exception name): `float(value)` on
an int beyond the double range, and `int(round(...))` on an infinite float
— a string numeral like `"1e400"` parses to `inf` and then raises at
`round`.  `ValueError` (non-numeric string) and `TypeError` (`None`) are
caught and fall back to `str(value)`. -/
def fmt_idr_checked : PyValF → Except String String
  | .vstr s =>
    match pyFloatDouble s with
    | some (.finite q) => .ok (fmtFinite q)
    | some (.infty _) => .error "OverflowError"
    | none => .ok s
  | .vint n =>
    if OVERFLOW_BOUND ≤ (n : Rat) ∨ (n : Rat) ≤ -OVERFLOW_BOUND then
      .error "OverflowError"
    else .ok (fmtFinite ((n : Int) : Rat))
  | .vfloat (.finite q) => .ok (fmtFinite q)
  | .vfloat (.infty _) => .error "OverflowError"
  | .vnone => .ok "None"

/-- Exception-aware model of `to_terbilang`.  For a finite total the
try/except structure always yields a string: `except Exception` catches a
`num2words` failure and falls back to `fmt_idr(total)`, which returns
normally on finite floats.  For an infinite total `int(round(total))`
raises inside the `try`, and the fallback `fmt_idr(total)` inside the
handler raises `OverflowError` itself, which propagates to the caller. -/
def to_terbilang_checked (conv : Int → Option String) :
    PyFloat → Except String String
  | .finite q =>
    match conv (pyRound q) with
    | some w => .ok (pyCapitalize w ++ " rupiah")
    | none => fmt_idr_checked (.vfloat (.finite q))
  | .infty b => fmt_idr_checked (.vfloat (.infty b))

/-- The non-raising value of `fmt_idr` on a finite float agrees with the
total model used inside `generate_pdf`. -/
theorem fmtFinite_eq (q : Rat) : fmtFinite q = fmt_idr (.vnum q) := rfl

/-- A cell of a row: `none` is a pandas `NaN`; a present value is modelled
by the string `str(v)` renders it to. -/
abbrev Cell := Option String

/-- A row: mapping from column name to cell, as `df.iloc[idx].to_dict()`
hands it to `generate_pdf` (association list, first match wins). -/
abbrev Row := List (String × Cell)

/-- First-match association-list lookup (Python `dict` access; all dicts in
the program have distinct keys, so first match is the dict semantics). -/
def dictLookup {α : Type} (k : String) : List (String × α) → Option α
  | [] => none
  | (a, v) :: t => if a = k then some v else dictLookup k t

/-- Python's `d.get(k, default)`. -/
def dictGetD (k d : String) (l : List (String × String)) : String :=
  (dictLookup k l).getD d

/-- Model of `safe(row, key)`: `row.get(key, "")`, with `NaN` turned into
the empty string and everything else passed through `str(v).strip()`. -/
def safe (row : Row) (key : String) : String :=
  match dictLookup key row with
  | none => ""
  | some none => ""
  | some (some s) => pyStrip s

/-- The `COLUMNS` configuration dict as shipped: marker name to CSV column
name, the identity on every key (nine header fields plus `Service i`,
`Qty i`, `Price i` for `i` in `1..6`). -/
def COLUMNS : List (String × String) :=
  [("Client", "Client"), ("PIC", "PIC"), ("Contact", "Contact"),
   ("E-mail", "E-mail"), ("Address", "Address"),
   ("No. Invoice", "No. Invoice"), ("No. Quotation", "No. Quotation"),
   ("Invoice Date", "Invoice Date"), ("Due Date", "Due Date")]
  ++ (List.range' 1 6).flatMap (fun i =>
    [("Service " ++ toString i, "Service " ++ toString i),
     ("Qty " ++ toString i, "Qty " ++ toString i),
     ("Price " ++ toString i, "Price " ++ toString i)])

/-- `COLUMNS.get(f"Service {i}", "")`. -/
def svcCol (i : Nat) : String := dictGetD ("Service " ++ toString i) "" COLUMNS

/-- `COLUMNS.get(f"Qty {i}", "")`. -/
def qtyCol (i : Nat) : String := dictGetD ("Qty " ++ toString i) "" COLUMNS

/-- `COLUMNS.get(f"Price {i}", "")`. -/
def priceCol (i : Nat) : String := dictGetD ("Price " ++ toString i) "" COLUMNS

/-- `COLUMNS.get("Client", "Client")`, the `_client_col` of the UI layer. -/
def clientCol : String := dictGetD "Client" "Client" COLUMNS

/-- The CSV column holding recipient addresses. -/
def EMAIL_COLUMN : String := "E-mail"

/-- Python's `s or 0` fed to `float`: an empty string becomes the number 0,
anything else is parsed (raising `ValueError`, i.e. `none`, on failure). -/
def floatOrZero (s : String) : Option Rat :=
  if s = "" then some 0 else pyFloat s

/-- The value stored in `subtotals[i]` by the calculated-columns loop of
`generate_pdf`: `0.0` for a line whose (trimmed) service name is empty,
otherwise `float(qty or 0) * float(price or 0)` with a `ValueError` from
either parse degrading the product to `0.0`. -/
def lineSub (row : Row) (i : Nat) : Rat :=
  if safe row (svcCol i) = "" then 0
  else
    match floatOrZero (safe row (qtyCol i)), floatOrZero (safe row (priceCol i)) with
    | some q, some p => q * p
    | _, _ => 0

/-- The running `total` of the calculated-columns loop: lines with an empty
service name are skipped (`continue`), every other line adds its subtotal. -/
def totalCalc (row : Row) : Rat :=
  (List.range' 1 6).foldl
    (fun acc i => if safe row (svcCol i) = "" then acc else acc + lineSub row i) 0

/-- Placeholder token `\x7b\x7bname\x7d\x7d` as written in the template. -/
def phKey (name : String) : String := "\x7b\x7b" ++ name ++ "\x7d\x7d"

/-- `\x7b\x7bService i\x7d\x7d`. -/
def svcKey (i : Nat) : String := phKey ("Service " ++ toString i)

/-- `\x7b\x7bQty i\x7d\x7d`. -/
def qtyKey (i : Nat) : String := phKey ("Qty " ++ toString i)

/-- `\x7b\x7bPrice i\x7d\x7d`. -/
def priceKey (i : Nat) : String := phKey ("Price " ++ toString i)

/-- `\x7b\x7bSubtotal i\x7d\x7d`. -/
def subKey (i : Nat) : String := phKey ("Subtotal " ++ toString i)

/-- The string written into the `Qty i` placeholder for a line with a
non-empty service name: `str(int(float(raw_qty))) if raw_qty else ""`, with
a parse failure caught and the raw string echoed verbatim. -/
def qtyRendered (row : Row) (i : Nat) : String :=
  let raw := safe row (qtyCol i)
  if raw = "" then ""
  else
    match pyFloat raw with
    | some q => intStr (pyInt q)
    | none => raw

/-- The nine header fields copied verbatim into the placeholder map. -/
def headerFields : List String :=
  ["Client", "PIC", "Contact", "E-mail", "Address",
   "No. Invoice", "No. Quotation", "Invoice Date", "Due Date"]

/-- Header part of the placeholder map:
`replacements["\x7b\x7b" + field + "\x7d\x7d"] = safe(row, COLUMNS.get(field, field))`. -/
def headerEntries (row : Row) : List (String × String) :=
  headerFields.map (fun f => (phKey f, safe row (dictGetD f f COLUMNS)))

/-- Per-line part of the placeholder map: the service name always, then
either the rendered quantity, formatted price and formatted subtotal (for a
present line) or empty strings (for a line whose service name is blank). -/
def lineEntries (row : Row) (i : Nat) : List (String × String) :=
  let svc := safe row (svcCol i)
  (svcKey i, svc) ::
    (if svc ≠ "" then
      [(qtyKey i, qtyRendered row i),
       (priceKey i, fmt_idr (.vstr (safe row (priceCol i)))),
       (subKey i, fmt_idr (.vnum (lineSub row i)))]
    else
      [(qtyKey i, ""), (priceKey i, ""), (subKey i, "")])

/-- The full placeholder map of `generate_pdf` in insertion order: header
fields, the six line blocks, then `Total` and `Terbilang`. -/
def replacementsOf (conv : Int → Option String) (row : Row) :
    List (String × String) :=
  headerEntries row
  ++ (List.range' 1 6).flatMap (lineEntries row)
  ++ [(phKey "Total", fmt_idr (.vnum (totalCalc row))),
      (phKey "Terbilang", to_terbilang conv (totalCalc row))]

/-- One element of the `results` list of the "Generate & Send Emails" loop:
the code appends `("success", recipient)` or `("error", message)` pairs. -/
inductive Outcome where
  | success (recipient : String)
  | error (msg : String)
deriving DecidableEq

/-- The attachment/file name: `(safe(row, _client_col) or f"invoice_{idx}").replace(" ", "_")`. -/
def nameOf (idx : Nat) (row : Row) : String :=
  pyStrReplace
    (if safe row clientCol = "" then "invoice_" ++ toString idx else safe row clientCol)
    " " "_"

/-- The outcome one selected row produces.  `attempt idx row` stands for the
try-block `send_email(recipient, generate_pdf(row), name)`: `none` when it
returns normally, `some msg` when it raises with message `str(exc)`. -/
def rowOutcome (attempt : Nat → Row → Option String) (pr : Nat × Row) : Outcome :=
  let recipient := safe pr.2 EMAIL_COLUMN
  if recipient = "" then
    .error ("Row " ++ toString pr.1 ++ " (" ++ nameOf pr.1 pr.2 ++ "): no email address")
  else
    match attempt pr.1 pr.2 with
    | none => .success recipient
    | some e => .error (recipient ++ ": " ++ e)

/-- The "Generate & Send Emails" loop over the selected rows: starting from
an empty `results` list, each row appends exactly one outcome; an empty
recipient address appends an error naming the row and `continue`s, an
exception from generating or sending appends an error for that recipient,
and in every case the loop proceeds to the next row. -/
def processBatch (attempt : Nat → Row → Option String)
    (rows : List (Nat × Row)) : List Outcome :=
  rows.foldl
    (fun results pr =>
      let recipient := safe pr.2 EMAIL_COLUMN
      if recipient = "" then
        results ++ [.error ("Row " ++ toString pr.1 ++ " (" ++ nameOf pr.1 pr.2
          ++ "): no email address")]
      else
        match attempt pr.1 pr.2 with
        | none => results ++ [.success recipient]
        | some e => results ++ [.error (recipient ++ ": " ++ e)])
    []

/-- The fold of `processBatch` accumulates one outcome per row. -/
theorem processBatch_go (attempt : Nat → Row → Option String) :
    ∀ (rows : List (Nat × Row)) (acc : List Outcome),
      rows.foldl
        (fun results pr =>
          let recipient := safe pr.2 EMAIL_COLUMN
          if recipient = "" then
            results ++ [Outcome.error ("Row " ++ toString pr.1 ++ " (" ++ nameOf pr.1 pr.2
              ++ "): no email address")]
          else
            match attempt pr.1 pr.2 with
            | none => results ++ [Outcome.success recipient]
            | some e => results ++ [Outcome.error (recipient ++ ": " ++ e)]) acc
      = acc ++ rows.map (rowOutcome attempt)
  | [], acc => by simp
  | pr :: t, acc => by
    rw [List.foldl_cons, processBatch_go attempt t]
    by_cases h : safe pr.2 EMAIL_COLUMN = ""
    · simp [rowOutcome, h]
    · cases he : attempt pr.1 pr.2 <;> simp [rowOutcome, h, he]

/-- C8. For every batch of selected rows, processing yields exactly one
outcome per row, computed from that row alone: an empty recipient address
yields an error naming the row, an exception from generating or sending
yields an error for that recipient, and neither failure prevents the
remaining rows from being attempted — the batch equals the row-wise map of
outcomes and is never aborted on first failure. -/
theorem claim8_batch_outcomes (attempt : Nat → Row → Option String)
    (rows : List (Nat × Row)) :
    processBatch attempt rows = rows.map (rowOutcome attempt) ∧
    (processBatch attempt rows).length = rows.length ∧
    (∀ idx row, safe row EMAIL_COLUMN = "" →
      rowOutcome attempt (idx, row) =
        .error ("Row " ++ toString idx ++ " (" ++ nameOf idx row ++ "): no email address")) ∧
    (∀ idx row e, safe row EMAIL_COLUMN ≠ "" → attempt idx row = some e →
      rowOutcome attempt (idx, row) = .error (safe row EMAIL_COLUMN ++ ": " ++ e)) ∧
    (∀ idx row, safe row EMAIL_COLUMN ≠ "" → attempt idx row = none →
      rowOutcome attempt (idx, row) = .success (safe row EMAIL_COLUMN)) := by
  refine ⟨?_, ?_, ?_, ?_, ?_⟩
  · simpa [processBatch] using processBatch_go attempt rows []
  · simpa [processBatch] using congrArg List.length (processBatch_go attempt rows [])
  · intro idx row h; simp [rowOutcome, h]
  · intro idx row e h he; simp [rowOutcome, h, he]
  · intro idx row h he; simp [rowOutcome, h, he]

/-- Witness for C8: a concrete three-row batch in which the second row has
no email address and the third row's send raises; the loop still reaches
every row and reports one outcome each. -/
theorem claim8_witness :
    processBatch (fun idx _ => if idx = 2 then some "boom" else none)
        [(0, [("E-mail", some "a@b.co"), ("Client", some "PT X")]),
         (1, [("Client", some "PT Y Z")]),
         (2, [("E-mail", some "c@d.co"), ("Client", some "PT W")])]
      = [.success "a@b.co",
         .error "Row 1 (PT_Y_Z): no email address",
         .error "c@d.co: boom"] ∧
    rowOutcome (fun idx _ => if idx = 2 then some "boom" else none)
        (1, [("Client", some "PT Y Z")])
      = .error "Row 1 (PT_Y_Z): no email address" := by
  constructor
  · rw [(claim8_batch_outcomes (fun idx _ => if idx = 2 then some "boom" else none)
      [(0, [("E-mail", some "a@b.co"), ("Client", some "PT X")]),
       (1, [("Client", some "PT Y Z")]),
       (2, [("E-mail", some "c@d.co"), ("Client", some "PT W")])]).1]
    decide
  · exact (claim8_batch_outcomes (fun idx _ => if idx = 2 then some "boom" else none)
      []).2.2.1 1 [("Client", some "PT Y Z")] (by decide)

/-- C6 (amended). For every finite total `to_terbilang` returns a string:
when the word conversion (the external `num2words` call, modelled by
`conv`) fails it returns `fmt_idr(total)`, and on success it returns the
capitalized word form with the fixed `" rupiah"` suffix appended.  For an
infinite total, however, `int(round(total))` raises inside the `try`, and
the fallback `fmt_idr(total)` inside the `except Exception` handler raises
`OverflowError` itself, so the caller does receive an exception. -/
theorem claim6_to_terbilang (conv : Int → Option String) :
    (∀ q : Rat, to_terbilang_checked conv (.finite q) = .ok (to_terbilang conv q)) ∧
    (∀ q : Rat, conv (pyRound q) = none →
      to_terbilang conv q = fmt_idr (.vnum q)) ∧
    (∀ (q : Rat) (w : String), conv (pyRound q) = some w →
      to_terbilang conv q = pyCapitalize w ++ " rupiah") ∧
    (∀ b, to_terbilang_checked conv (.infty b) = .error "OverflowError") := by
  refine ⟨?_, ?_, ?_, ?_⟩
  · intro q
    unfold to_terbilang_checked to_terbilang
    cases h : conv (pyRound q) with
    | none => simp [h, fmt_idr_checked, fmtFinite_eq]
    | some w => simp [h]
  · intro q h; simp [to_terbilang, h]
  · intro q w h; simp [to_terbilang, h]
  · intro b; rfl

/-- Counterexample for C6 as stated: at an infinite total (as produced by a
row whose price column holds a numeral like `"1e400"`) the caller receives
an `OverflowError`, not a string — the fallback inside the handler raises
too. -/
theorem claim6_counterexample :
    to_terbilang_checked (fun _ => none) (.infty false) = .error "OverflowError" ∧
    fmt_idr_checked (.vfloat (.infty false)) = .error "OverflowError" :=
  ⟨rfl, rfl⟩

/-- Witness for C6: on the finite total 1000 a conversion that succeeds
with `"seribu"` yields `"Seribu rupiah"` and the checked model returns a
string; a conversion that always fails falls back to the formatted
amount. -/
theorem claim6_witness :
    to_terbilang_checked (fun _ => some "seribu") (.finite 1000)
      = .ok (to_terbilang (fun _ => some "seribu") 1000) ∧
    to_terbilang (fun _ => none) 1000 = fmt_idr (.vnum 1000) ∧
    to_terbilang (fun _ => some "seribu") 1000 = pyCapitalize "seribu" ++ " rupiah" :=
  ⟨(claim6_to_terbilang (fun _ => some "seribu")).1 1000,
   (claim6_to_terbilang (fun _ => none)).2.1 1000 rfl,
   (claim6_to_terbilang (fun _ => some "seribu")).2.2.1 1000 "seribu" rfl⟩

/-- C1 (amended). The substitution pass matches placeholders against the
paragraph's concatenated run text and performs all replacements against that
concatenated string; whenever the result differs from the original text and
the paragraph has at least one run, the fully-substituted result is written
into the first run and every other run is blanked; when no replacement
changes the text the runs are left untouched.  Either way the paragraph's
concatenated text afterwards is the fully-substituted concatenated text, the
same text a single-run paragraph with identical content would produce — so a
token split across styled runs is still fully replaced and no split
fragment of a replaced token survives a run boundary. -/
theorem claim1_paragraph_substitution (repl : List (List Char × List Char))
    (runs : List (List Char)) :
    (runs ≠ [] →
      (replace_in_paragraph repl runs).flatten = applyAllC repl runs.flatten) ∧
    (applyAllC repl runs.flatten ≠ runs.flatten → runs ≠ [] →
      replace_in_paragraph repl runs =
        applyAllC repl runs.flatten :: runs.tail.map (fun _ => [])) ∧
    (applyAllC repl runs.flatten = runs.flatten →
      replace_in_paragraph repl runs = runs) ∧
    (runs ≠ [] →
      (replace_in_paragraph repl runs).flatten =
        (replace_in_paragraph repl [runs.flatten]).flatten) := by
  refine ⟨replace_in_paragraph_text repl runs, ?_, ?_, ?_⟩
  · intro hch hne
    unfold replace_in_paragraph
    simp [hch, hne]
  · intro hch
    unfold replace_in_paragraph
    simp [hch]
  · intro hne
    rw [replace_in_paragraph_text repl runs hne,
      replace_in_paragraph_text repl [runs.flatten] (by simp)]
    simp

/-- Counterexample for C1 as stated: with the placeholder map
`[("\x7b\x7bX\x7d\x7d", "y")]` and a two-run paragraph `["a", "b"]`
containing no placeholder, `_replace_in_paragraph` leaves both runs
untouched instead of writing the (unchanged) concatenated text into the
first run and blanking the second, as the unconditional claim would
require. -/
theorem claim1_counterexample :
    replace_in_paragraph [(chars "\x7b\x7bX\x7d\x7d", chars "y")]
        [chars "a", chars "b"]
      = [chars "a", chars "b"] ∧
    replace_in_paragraph [(chars "\x7b\x7bX\x7d\x7d", chars "y")]
        [chars "a", chars "b"]
      ≠ applyAllC [(chars "\x7b\x7bX\x7d\x7d", chars "y")]
          ([chars "a", chars "b"] : List (List Char)).flatten
        :: ([chars "a", chars "b"] : List (List Char)).tail.map (fun _ => []) := by
  constructor
  · decide
  · decide

/-- Witness for C1: a placeholder split across two runs (`"\x7b\x7bA"` and
`"\x7d\x7d"`) is fully substituted; the first run receives the substituted
text and the second is blanked. -/
theorem claim1_witness :
    (replace_in_paragraph [(chars "\x7b\x7bA\x7d\x7d", chars "ok")]
        [chars "\x7b\x7bA", chars "\x7d\x7d"]).flatten
      = applyAllC [(chars "\x7b\x7bA\x7d\x7d", chars "ok")]
          ([chars "\x7b\x7bA", chars "\x7d\x7d"] : List (List Char)).flatten ∧
    replace_in_paragraph [(chars "\x7b\x7bA\x7d\x7d", chars "ok")]
        [chars "\x7b\x7bA", chars "\x7d\x7d"]
      = applyAllC [(chars "\x7b\x7bA\x7d\x7d", chars "ok")]
          ([chars "\x7b\x7bA", chars "\x7d\x7d"] : List (List Char)).flatten
        :: ([chars "\x7b\x7bA", chars "\x7d\x7d"] : List (List Char)).tail.map
            (fun _ => []) :=
  ⟨(claim1_paragraph_substitution [(chars "\x7b\x7bA\x7d\x7d", chars "ok")]
      [chars "\x7b\x7bA", chars "\x7d\x7d"]).1 (by decide),
   (claim1_paragraph_substitution [(chars "\x7b\x7bA\x7d\x7d", chars "ok")]
      [chars "\x7b\x7bA", chars "\x7d\x7d"]).2.1 (by decide) (by decide)⟩

/-- C9. Replacements are applied sequentially to one shared text buffer, not
simultaneously: with the map `[("\x7b\x7bA\x7d\x7d", "\x7b\x7bB\x7d\x7d"),
("\x7b\x7bB\x7d\x7d", "ok")]`, whose first value contains the literal token
of the later entry, substituting in the one-run paragraph
`["\x7b\x7bA\x7d\x7d"]` also replaces the embedded later token, producing
`"ok"` rather than `"\x7b\x7bB\x7d\x7d"`. -/
theorem claim9_sequential_replacement :
    replace_in_paragraph
        [(chars "\x7b\x7bA\x7d\x7d", chars "\x7b\x7bB\x7d\x7d"),
         (chars "\x7b\x7bB\x7d\x7d", chars "ok")]
        [chars "\x7b\x7bA\x7d\x7d"]
      = [chars "ok"] ∧
    applyAllC
        [(chars "\x7b\x7bA\x7d\x7d", chars "\x7b\x7bB\x7d\x7d"),
         (chars "\x7b\x7bB\x7d\x7d", chars "ok")]
        (chars "\x7b\x7bA\x7d\x7d")
      = chars "ok" := by
  constructor
  · decide
  · decide

/-- Lookup distributes over append when the key is found on the left. -/
theorem dictLookup_append_left {α : Type} (k : String) (v : α) :
    ∀ (l1 l2 : List (String × α)), dictLookup k l1 = some v →
      dictLookup k (l1 ++ l2) = some v
  | [], _, h => by simp [dictLookup] at h
  | (a, w) :: t, l2, h => by
    by_cases ha : a = k
    · simpa [dictLookup, ha] using (by simpa [dictLookup, ha] using h)
    · simpa [dictLookup, ha] using dictLookup_append_left k v t l2
        (by simpa [dictLookup, ha] using h)

/-- Lookup skips a left part that does not contain the key. -/
theorem dictLookup_append_right {α : Type} (k : String) :
    ∀ (l1 l2 : List (String × α)), dictLookup k l1 = none →
      dictLookup k (l1 ++ l2) = dictLookup k l2
  | [], _, _ => rfl
  | (a, w) :: t, l2, h => by
    by_cases ha : a = k
    · simp [dictLookup, ha] at h
    · simpa [dictLookup, ha] using dictLookup_append_right k t l2
        (by simpa [dictLookup, ha] using h)

/-- A key absent from the key list is not found. -/
theorem dictLookup_eq_none {α : Type} (k : String) :
    ∀ (l : List (String × α)), k ∉ l.map Prod.fst → dictLookup k l = none
  | [], _ => rfl
  | (a, w) :: t, h => by
    have ha : a ≠ k := by intro e; exact h (by simp [e])
    have ht : k ∉ t.map Prod.fst := fun m => h (by simp [m])
    simpa [dictLookup, ha] using dictLookup_eq_none k t ht

/-- Lookup in a flattened family of blocks: if block `i` of the family
contains the key and every other block misses it, the flattened lookup
returns block `i`'s answer. -/
theorem dictLookup_flatMap (k : String) (v : String) (f : Nat → List (String × String))
    (i : Nat) :
    ∀ L : List Nat, i ∈ L → dictLookup k (f i) = some v →
      (∀ j ∈ L, j ≠ i → dictLookup k (f j) = none) →
      dictLookup k (L.flatMap f) = some v
  | [], hi, _, _ => by simp at hi
  | j :: t, hi, hv, hothers => by
    rw [List.flatMap_cons]
    by_cases hji : j = i
    · rw [hji]
      exact dictLookup_append_left k v (f i) (t.flatMap f) hv
    · rw [dictLookup_append_right k (f j) (t.flatMap f)
        (hothers j (List.mem_cons_self j t) hji)]
      have hit : i ∈ t := by
        rcases List.mem_cons.mp hi with h | h
        · exact absurd h.symm hji
        · exact h
      exact dictLookup_flatMap k v f i t hit hv
        (fun j' hj' => hothers j' (List.mem_cons_of_mem j hj'))

/-- The four placeholder keys of line `i`, in insertion order. -/
def keyList (i : Nat) : List String := [svcKey i, qtyKey i, priceKey i, subKey i]

/-- The keys of a line block do not depend on the row. -/
theorem lineEntries_keys (row : Row) (i : Nat) :
    (lineEntries row i).map Prod.fst = keyList i := by
  by_cases h : safe row (svcCol i) = "" <;> simp [lineEntries, keyList, h]

/-- The keys of the header block. -/
theorem headerEntries_keys (row : Row) :
    (headerEntries row).map Prod.fst = headerFields.map phKey := by
  simp [headerEntries, headerFields]

/-- Distinctness of all placeholder keys actually used: for line indices in
`1..6`, no header key, no `Total`/`Terbilang` key and no key of a different
line block coincides with a key of line `i`, and the four keys of one block
are pairwise distinct. -/
theorem keys_sound :
    ∀ i ∈ List.range' 1 6, ∀ a ∈ keyList i,
      (∀ f ∈ headerFields, phKey f ≠ a) ∧
      (∀ j ∈ List.range' 1 6, j ≠ i → ∀ b ∈ keyList j, b ≠ a) ∧
      svcKey i ≠ qtyKey i ∧ svcKey i ≠ priceKey i ∧ svcKey i ≠ subKey i ∧
      qtyKey i ≠ priceKey i ∧ qtyKey i ≠ subKey i ∧ priceKey i ≠ subKey i := by
  decide

/-- Membership in `1..6` from the bounds used by the claims. -/
theorem mem_range16 (i : Nat) (h1 : 1 ≤ i) (h2 : i ≤ 6) : i ∈ List.range' 1 6 := by
  have : List.range' 1 6 = [1, 2, 3, 4, 5, 6] := rfl
  rw [this]
  interval_cases i <;> decide

/-- Lookup of line `i`'s key `a` in the full placeholder map reduces to the
lookup inside line `i`'s own block. -/
theorem lookup_replacements (conv : Int → Option String) (row : Row) (i : Nat)
    (hi : i ∈ List.range' 1 6) (a : String) (ha : a ∈ keyList i) (v : String)
    (hline : dictLookup a (lineEntries row i) = some v) :
    dictLookup a (replacementsOf conv row) = some v := by
  obtain ⟨hhdr, hothers, _⟩ := keys_sound i hi a ha
  unfold replacementsOf
  rw [List.append_assoc]
  rw [dictLookup_append_right a (headerEntries row) _ (dictLookup_eq_none a _ (by
    rw [headerEntries_keys]
    intro hmem
    obtain ⟨f, hf, hfe⟩ := List.mem_map.mp hmem
    exact hhdr f hf hfe))]
  exact dictLookup_append_left a v _ _
    (dictLookup_flatMap a v (lineEntries row) i (List.range' 1 6) hi hline
      (fun j hj hji => dictLookup_eq_none a _ (by
        rw [lineEntries_keys]
        intro hmem
        exact hothers j hj hji a hmem rfl)))

/-- The service placeholder of line `i` holds the trimmed service name. -/
theorem lookup_line_svc (row : Row) (i : Nat) :
    dictLookup (svcKey i) (lineEntries row i) = some (safe row (svcCol i)) := by
  by_cases h : safe row (svcCol i) = "" <;> simp [lineEntries, dictLookup, h]

/-- In-block lookup of the quantity placeholder. -/
theorem lookup_line_qty (row : Row) (i : Nat) (hsq : svcKey i ≠ qtyKey i) :
    dictLookup (qtyKey i) (lineEntries row i) =
      some (if safe row (svcCol i) = "" then "" else qtyRendered row i) := by
  by_cases h : safe row (svcCol i) = "" <;> simp [lineEntries, dictLookup, h, hsq]

/-- In-block lookup of the price placeholder. -/
theorem lookup_line_price (row : Row) (i : Nat) (hsp : svcKey i ≠ priceKey i)
    (hqp : qtyKey i ≠ priceKey i) :
    dictLookup (priceKey i) (lineEntries row i) =
      some (if safe row (svcCol i) = "" then ""
        else fmt_idr (.vstr (safe row (priceCol i)))) := by
  by_cases h : safe row (svcCol i) = "" <;> simp [lineEntries, dictLookup, h, hsp, hqp]

/-- In-block lookup of the subtotal placeholder. -/
theorem lookup_line_sub (row : Row) (i : Nat) (hss : svcKey i ≠ subKey i)
    (hqs : qtyKey i ≠ subKey i) (hps : priceKey i ≠ subKey i) :
    dictLookup (subKey i) (lineEntries row i) =
      some (if safe row (svcCol i) = "" then ""
        else fmt_idr (.vnum (lineSub row i))) := by
  by_cases h : safe row (svcCol i) = "" <;>
    simp [lineEntries, dictLookup, h, hss, hqs, hps]

/-- The empty string is not a decimal numeral. -/
theorem pyFloat_empty : pyFloat "" = none := rfl

/-- C3. For every row and line index `i` in `1..6` with an empty trimmed
service name, the `Service i`, `Qty i`, `Price i` and `Subtotal i`
placeholders all resolve to the empty string and the line's subtotal is 0,
regardless of what the row holds in its `Qty i` and `Price i` columns. -/
theorem claim3_blank_line (conv : Int → Option String) (row : Row) (i : Nat)
    (h1 : 1 ≤ i) (h2 : i ≤ 6) (hsvc : safe row (svcCol i) = "") :
    dictLookup (svcKey i) (replacementsOf conv row) = some "" ∧
    dictLookup (qtyKey i) (replacementsOf conv row) = some "" ∧
    dictLookup (priceKey i) (replacementsOf conv row) = some "" ∧
    dictLookup (subKey i) (replacementsOf conv row) = some "" ∧
    lineSub row i = 0 := by
  have hi := mem_range16 i h1 h2
  obtain ⟨-, -, hsq, hsp, hss, hqp, hqs, hps⟩ :=
    keys_sound i hi (svcKey i) (by simp [keyList])
  refine ⟨?_, ?_, ?_, ?_, ?_⟩
  · exact lookup_replacements conv row i hi (svcKey i) (by simp [keyList]) _
      (by rw [lookup_line_svc, hsvc])
  · exact lookup_replacements conv row i hi (qtyKey i) (by simp [keyList]) _
      (by rw [lookup_line_qty row i hsq, if_pos hsvc])
  · exact lookup_replacements conv row i hi (priceKey i) (by simp [keyList]) _
      (by rw [lookup_line_price row i hsp hqp, if_pos hsvc])
  · exact lookup_replacements conv row i hi (subKey i) (by simp [keyList]) _
      (by rw [lookup_line_sub row i hss hqs hps, if_pos hsvc])
  · simp [lineSub, hsvc]

/-- Witness for C3: in a row whose `Service 2` is blank while `Qty 2` and
`Price 2` are present, all line-2 placeholders resolve to the empty string
and line 2 contributes nothing. -/
theorem claim3_witness :
    dictLookup (svcKey 2)
        (replacementsOf (fun _ => none)
          [("Service 2", some " "), ("Qty 2", some "4"), ("Price 2", some "100")])
      = some "" ∧
    dictLookup (qtyKey 2)
        (replacementsOf (fun _ => none)
          [("Service 2", some " "), ("Qty 2", some "4"), ("Price 2", some "100")])
      = some "" ∧
    dictLookup (priceKey 2)
        (replacementsOf (fun _ => none)
          [("Service 2", some " "), ("Qty 2", some "4"), ("Price 2", some "100")])
      = some "" ∧
    dictLookup (subKey 2)
        (replacementsOf (fun _ => none)
          [("Service 2", some " "), ("Qty 2", some "4"), ("Price 2", some "100")])
      = some "" ∧
    lineSub [("Service 2", some " "), ("Qty 2", some "4"), ("Price 2", some "100")] 2
      = 0 :=
  claim3_blank_line (fun _ => none)
    [("Service 2", some " "), ("Qty 2", some "4"), ("Price 2", some "100")]
    2 (by decide) (by decide) (by decide)

/-- C10. For every row and line index `i` in `1..6` with a non-empty
trimmed service name but an empty (or missing, or `NaN`) quantity cell, the
`Qty i` placeholder resolves to the empty string — not `"0"` — while the
arithmetic treats the quantity as 0, so the line's subtotal is 0. -/
theorem claim10_empty_qty (conv : Int → Option String) (row : Row) (i : Nat)
    (h1 : 1 ≤ i) (h2 : i ≤ 6) (hsvc : safe row (svcCol i) ≠ "")
    (hqty : safe row (qtyCol i) = "") :
    dictLookup (qtyKey i) (replacementsOf conv row) = some "" ∧
    ("" : String) ≠ "0" ∧
    lineSub row i = 0 := by
  have hi := mem_range16 i h1 h2
  obtain ⟨-, -, hsq, -⟩ := keys_sound i hi (svcKey i) (by simp [keyList])
  refine ⟨?_, by decide, ?_⟩
  · exact lookup_replacements conv row i hi (qtyKey i) (by simp [keyList]) _
      (by rw [lookup_line_qty row i hsq, if_neg hsvc]; simp [qtyRendered, hqty])
  · unfold lineSub
    rw [if_neg hsvc, hqty]
    cases hp : floatOrZero (safe row (priceCol i)) <;>
      simp [floatOrZero, hp]

/-- C4. For every row and line index `i` in `1..6` with a non-empty trimmed
service name: a quantity that does not parse as a number is echoed verbatim
into the `Qty i` placeholder while the line contributes 0 to the total; a
quantity that parses is rendered in integer (truncated) form; and the
`Price i` and `Subtotal i` placeholders always go through the currency
formatter `fmt_idr`. -/
theorem claim4_qty_rendering (conv : Int → Option String) (row : Row) (i : Nat)
    (h1 : 1 ≤ i) (h2 : i ≤ 6) (hsvc : safe row (svcCol i) ≠ "") :
    (pyFloat (safe row (qtyCol i)) = none →
      dictLookup (qtyKey i) (replacementsOf conv row) = some (safe row (qtyCol i)) ∧
      lineSub row i = 0) ∧
    (∀ q, pyFloat (safe row (qtyCol i)) = some q →
      dictLookup (qtyKey i) (replacementsOf conv row) = some (intStr (pyInt q))) ∧
    dictLookup (priceKey i) (replacementsOf conv row) =
      some (fmt_idr (.vstr (safe row (priceCol i)))) ∧
    dictLookup (subKey i) (replacementsOf conv row) =
      some (fmt_idr (.vnum (lineSub row i))) := by
  have hi := mem_range16 i h1 h2
  obtain ⟨-, -, hsq, hsp, hss, hqp, hqs, hps⟩ :=
    keys_sound i hi (svcKey i) (by simp [keyList])
  refine ⟨?_, ?_, ?_, ?_⟩
  · intro hq
    constructor
    · refine lookup_replacements conv row i hi (qtyKey i) (by simp [keyList]) _ ?_
      rw [lookup_line_qty row i hsq, if_neg hsvc]
      by_cases hr : safe row (qtyCol i) = ""
      · simp [qtyRendered, hr]
      · simp [qtyRendered, hr, hq]
    · unfold lineSub
      rw [if_neg hsvc]
      by_cases hr : safe row (qtyCol i) = ""
      · rw [hr]
        cases hp : floatOrZero (safe row (priceCol i)) <;>
          simp [floatOrZero, hp]
      · simp [floatOrZero, hr, hq]
  · intro q hq
    have hr : safe row (qtyCol i) ≠ "" := by
      intro he
      rw [he, pyFloat_empty] at hq
      exact Option.noConfusion hq
    refine lookup_replacements conv row i hi (qtyKey i) (by simp [keyList]) _ ?_
    rw [lookup_line_qty row i hsq, if_neg hsvc]
    simp [qtyRendered, hr, hq]
  · exact lookup_replacements conv row i hi (priceKey i) (by simp [keyList]) _
      (by rw [lookup_line_price row i hsp hqp, if_neg hsvc])
  · exact lookup_replacements conv row i hi (subKey i) (by simp [keyList]) _
      (by rw [lookup_line_sub row i hss hqs hps, if_neg hsvc])

/-- Witness for C4: a row with service `"Audit"`, non-numeric quantity
`"N/A"` and price `"100"` — the quantity placeholder echoes `"N/A"`, the
line contributes 0, and price/subtotal go through the formatter. -/
theorem claim4_witness :
    (dictLookup (qtyKey 1)
        (replacementsOf (fun _ => none)
          [("Service 1", some "Audit"), ("Qty 1", some "N/A"), ("Price 1", some "100")])
      = some (safe [("Service 1", some "Audit"), ("Qty 1", some "N/A"),
          ("Price 1", some "100")] (qtyCol 1)) ∧
      lineSub [("Service 1", some "Audit"), ("Qty 1", some "N/A"),
        ("Price 1", some "100")] 1 = 0) ∧
    dictLookup (priceKey 1)
        (replacementsOf (fun _ => none)
          [("Service 1", some "Audit"), ("Qty 1", some "N/A"), ("Price 1", some "100")])
      = some (fmt_idr (.vstr (safe [("Service 1", some "Audit"),
          ("Qty 1", some "N/A"), ("Price 1", some "100")] (priceCol 1)))) :=
  ⟨(claim4_qty_rendering (fun _ => none)
      [("Service 1", some "Audit"), ("Qty 1", some "N/A"), ("Price 1", some "100")]
      1 (by decide) (by decide) (by decide)).1 (by decide),
   (claim4_qty_rendering (fun _ => none)
      [("Service 1", some "Audit"), ("Qty 1", some "N/A"), ("Price 1", some "100")]
      1 (by decide) (by decide) (by decide)).2.2.1⟩

/-- Folding additions equals the sum of the mapped list. -/
theorem foldl_add_eq_sum (f : Nat → Rat) :
    ∀ (l : List Nat) (a : Rat),
      l.foldl (fun acc i => acc + f i) a = a + (l.map f).sum
  | [], a => by simp
  | i :: t, a => by
    rw [List.foldl_cons, foldl_add_eq_sum f t]
    simp [add_assoc]

/-- Skipping an absent line in the running total is the same as adding its
(zero) subtotal. -/
theorem totalCalc_step (row : Row) (acc : Rat) (i : Nat) :
    (if safe row (svcCol i) = "" then acc else acc + lineSub row i) =
      acc + lineSub row i := by
  by_cases h : safe row (svcCol i) = "" <;> simp [lineSub, h]

/-- C2 (amended). The computed total is the arithmetic sum of exactly the
line subtotals: absent lines (empty trimmed service name) record subtotal 0,
and a line whose quantity or price fails to parse degrades to subtotal 0
rather than raising.  (A line whose inputs parse to negative numbers does
contribute a negative value, so no nonnegativity holds; see the
counterexample.) -/
theorem claim2_total_sum (row : Row) :
    totalCalc row = ((List.range' 1 6).map (lineSub row)).sum ∧
    (∀ i, safe row (svcCol i) = "" → lineSub row i = 0) ∧
    (∀ i, safe row (svcCol i) ≠ "" →
      floatOrZero (safe row (qtyCol i)) = none ∨
        floatOrZero (safe row (priceCol i)) = none →
      lineSub row i = 0) := by
  refine ⟨?_, ?_, ?_⟩
  · unfold totalCalc
    have hf : (fun (acc : Rat) i => if safe row (svcCol i) = "" then acc
        else acc + lineSub row i) = fun acc i => acc + lineSub row i := by
      funext acc i
      exact totalCalc_step row acc i
    rw [hf, foldl_add_eq_sum (lineSub row) (List.range' 1 6) 0, zero_add]
  · intro i h
    simp [lineSub, h]
  · intro i hsvc h
    unfold lineSub
    rw [if_neg hsvc]
    rcases h with h | h
    · simp [h]
    · cases hq : floatOrZero (safe row (qtyCol i)) <;> simp [h, hq]

/-- Counterexample for C2 as stated: a present line with quantity `"-1"`
and price `"100"` contributes the negative value `-100` to the total, so
the claim that no line contributes a negative value fails. -/
theorem claim2_counterexample :
    lineSub [("Service 1", some "Konsultasi"), ("Qty 1", some "-1"),
        ("Price 1", some "100")] 1 < 0 ∧
    totalCalc [("Service 1", some "Konsultasi"), ("Qty 1", some "-1"),
        ("Price 1", some "100")]
      = lineSub [("Service 1", some "Konsultasi"), ("Qty 1", some "-1"),
          ("Price 1", some "100")] 1 := by
  constructor
  · have h : lineSub [("Service 1", some "Konsultasi"), ("Qty 1", some "-1"),
        ("Price 1", some "100")] 1 = ((-1 : Int) : Rat) * ((100 : Int) : Rat) := rfl
    rw [h]
    push_cast
    norm_num
  · have h : totalCalc [("Service 1", some "Konsultasi"), ("Qty 1", some "-1"),
        ("Price 1", some "100")]
        = 0 + lineSub [("Service 1", some "Konsultasi"), ("Qty 1", some "-1"),
            ("Price 1", some "100")] 1 := rfl
    rw [h, zero_add]

/-- Witness for C2: the degradation clauses at a concrete row — line 1 is
absent (service blank) and line 2 has an unparsable quantity, so both
record subtotal 0; the total is the sum of all six line subtotals. -/
theorem claim2_witness :
    lineSub [("Service 2", some "Audit"), ("Qty 2", some "N/A")] 1 = 0 ∧
    lineSub [("Service 2", some "Audit"), ("Qty 2", some "N/A")] 2 = 0 ∧
    totalCalc [("Service 2", some "Audit"), ("Qty 2", some "N/A")]
      = ((List.range' 1 6).map
          (lineSub [("Service 2", some "Audit"), ("Qty 2", some "N/A")])).sum :=
  ⟨(claim2_total_sum [("Service 2", some "Audit"), ("Qty 2", some "N/A")]).2.1
      1 (by decide),
   (claim2_total_sum [("Service 2", some "Audit"), ("Qty 2", some "N/A")]).2.2
      2 (by decide) (Or.inl (by decide)),
   (claim2_total_sum [("Service 2", some "Audit"), ("Qty 2", some "N/A")]).1⟩

/-- Facts about the character of one decimal digit. -/
theorem digitChar_props (d : Nat) (h : d < 10) :
    isDig (digitChar d) = true ∧ (digitChar d).isWhitespace = false ∧
    digitChar d ≠ '-' ∧ digitChar d ≠ '+' ∧ digitChar d ≠ '.' ∧
    digitChar d ≠ ',' ∧ isExpMark (digitChar d) = false ∧
    (digitChar d).toNat - 48 = d := by
  interval_cases d <;> decide

/-- All digits produced by the fuelled digit extraction are below 10. -/
theorem natDigitsAux_lt :
    ∀ (fuel n : Nat), ∀ d ∈ natDigitsAux fuel n, d < 10
  | 0, _ => by simp [natDigitsAux]
  | fuel + 1, 0 => by simp [natDigitsAux]
  | fuel + 1, n + 1 => by
    intro d hd
    rcases List.mem_cons.mp hd with h | h
    · subst h
      exact Nat.mod_lt _ (by norm_num)
    · exact natDigitsAux_lt fuel ((n + 1) / 10) d h

/-- The little-endian digits evaluate back to the number (given enough
fuel). -/
theorem natDigitsAux_eval :
    ∀ (fuel n : Nat), n ≤ fuel →
      (natDigitsAux fuel n).foldr (fun d r => d + 10 * r) 0 = n
  | 0, n, h => by
    interval_cases n
    simp [natDigitsAux]
  | fuel + 1, 0, _ => by simp [natDigitsAux]
  | fuel + 1, n + 1, h => by
    have hdiv : (n + 1) / 10 ≤ fuel := by
      have := Nat.div_lt_self (Nat.succ_pos n) (by norm_num : 1 < 10)
      omega
    rw [natDigitsAux, List.foldr_cons, natDigitsAux_eval fuel ((n + 1) / 10) hdiv]
    omega

/-- Big-endian folding of the reversed digit list, with explicit
accumulator. -/
theorem foldl_rev_digits :
    ∀ (L : List Nat) (a : Nat),
      L.reverse.foldl (fun x d => 10 * x + d) a =
        a * 10 ^ L.length + L.foldr (fun d r => d + 10 * r) 0
  | [], a => by simp
  | d :: t, a => by
    rw [List.reverse_cons, List.foldl_append, foldl_rev_digits t a]
    simp [List.foldr_cons, pow_succ]
    ring

/-- The rendered digit characters of a natural number evaluate back to it. -/
theorem charsToNat_natDigitChars (m : Nat) :
    charsToNat (natDigitChars m) = m := by
  by_cases hm : m = 0
  · subst hm
    decide
  · unfold natDigitChars charsToNat
    rw [if_neg hm, ← List.map_reverse, List.foldl_map]
    have hcongr : (natDigits10 m).reverse.foldl
        (fun x y => 10 * x + ((digitChar y).toNat - 48)) 0 =
        (natDigits10 m).reverse.foldl (fun x d => 10 * x + d) 0 := by
      refine List.foldl_ext _ _ 0 ?_
      intro b x hx
      rw [(digitChar_props x
        (natDigitsAux_lt m m x (List.mem_reverse.mp hx))).2.2.2.2.2.2.2]
    have heval : (natDigits10 m).foldr (fun d r => d + 10 * r) 0 = m :=
      natDigitsAux_eval m m (Nat.le_refl m)
    rw [hcongr, foldl_rev_digits (natDigits10 m) 0, heval]
    simp

/-- Every character of the rendered digits is a digit character. -/
theorem natDigitChars_mem (m : Nat) :
    ∀ c ∈ natDigitChars m, ∃ d, d < 10 ∧ c = digitChar d := by
  intro c hc
  unfold natDigitChars at hc
  by_cases hm : m = 0
  · rw [if_pos hm] at hc
    refine ⟨0, by norm_num, ?_⟩
    have hc' : c = '0' := by simpa using hc
    rw [hc']
    decide
  · rw [if_neg hm] at hc
    obtain ⟨d, hd, he⟩ := List.mem_map.mp (List.mem_reverse.mp hc)
    exact ⟨d, natDigitsAux_lt m m d hd, he.symm⟩

/-- The rendered digits of a number are never empty. -/
theorem natDigitChars_ne_nil (m : Nat) : natDigitChars m ≠ [] := by
  unfold natDigitChars
  by_cases hm : m = 0
  · simp [hm]
  · rw [if_neg hm]
    obtain ⟨k, hk⟩ := Nat.exists_eq_succ_of_ne_zero hm
    subst hk
    cases k <;> simp [natDigits10, natDigitsAux]

/-- The flattened chunks are the original list. -/
theorem chunk3_flatten : ∀ l : List Char, (chunk3 l).flatten = l
  | [] => rfl
  | [a] => rfl
  | [a, b] => rfl
  | a :: b :: c :: rest => by
    rw [chunk3, List.flatten_cons, chunk3_flatten rest]
    rfl

/-- Filtering the separator out of a separator-joined list recovers the
flattened chunks, provided no chunk contains the separator. -/
theorem joinSep_filter (sep : Char) :
    ∀ M : List (List Char), (∀ m ∈ M, ∀ c ∈ m, c ≠ sep) →
      (joinSep sep M).filter (fun c => c ≠ sep) = M.flatten
  | [], _ => rfl
  | [m], h => by
    have hj : joinSep sep [m] = m := rfl
    rw [hj]
    have : (m : List Char).filter (fun c => c ≠ sep) = m :=
      List.filter_eq_self.mpr (fun c hc => by
        simpa using h m (List.mem_singleton_self m) c hc)
    simpa using this
  | m :: m2 :: rest, h => by
    have hj : joinSep sep (m :: m2 :: rest) = m ++ sep :: joinSep sep (m2 :: rest) :=
      rfl
    rw [hj, List.filter_append]
    have h1 : (m : List Char).filter (fun c => c ≠ sep) = m :=
      List.filter_eq_self.mpr (fun c hc => by
        simpa using h m (List.mem_cons_self m _) c hc)
    have h2 := joinSep_filter sep (m2 :: rest)
      (fun m' hm' c hc => h m' (List.mem_cons_of_mem m hm') c hc)
    rw [h1]
    simp only [ne_eq, decide_not] at h2
    simp [h2]

/-- Mapping a character function over a separator-joined list maps the
separator and each chunk. -/
theorem joinSep_map (f : Char → Char) (sep : Char) :
    ∀ M : List (List Char),
      (joinSep sep M).map f = joinSep (f sep) (M.map (List.map f))
  | [] => rfl
  | [m] => rfl
  | m :: m2 :: rest => by
    have hj : joinSep sep (m :: m2 :: rest) = m ++ sep :: joinSep sep (m2 :: rest) :=
      rfl
    have hj' : joinSep (f sep) ((m :: m2 :: rest).map (List.map f)) =
        m.map f ++ f sep :: joinSep (f sep) ((m2 :: rest).map (List.map f)) := rfl
    rw [hj, hj', List.map_append, List.map_cons, joinSep_map f sep (m2 :: rest)]

/-- Reversing each chunk and the chunk list reverses the flattened text. -/
theorem flatten_rev_map_rev :
    ∀ M : List (List Char),
      ((M.map List.reverse).reverse).flatten = M.flatten.reverse
  | [] => rfl
  | m :: t => by
    rw [List.map_cons, List.reverse_cons, List.flatten_append,
      flatten_rev_map_rev t]
    simp [List.reverse_append]

/-- Replacing one single character by another is a pointwise map. -/
theorem pyReplace_single (a b : Char) :
    ∀ l : List Char,
      pyReplace l [a] [b] = l.map (fun c => if c = a then b else c)
  | [] => by simp [pyReplace, pyrAux]
  | c :: cs => by
    have h := pyReplace_single a b cs
    simp only [pyReplace, if_neg (by simp : ¬([a] : List Char) = [])] at h ⊢
    by_cases hca : a = c
    · subst hca
      rw [pyrAux]
      simp [List.isPrefixOf, h]
    · rw [pyrAux]
      simp [List.isPrefixOf, Ne.symm hca, hca, h, beq_iff_eq]

/-- `dropWhile` is the identity when no element satisfies the predicate. -/
theorem dropWhile_eq_self (p : Char → Bool) :
    ∀ l : List Char, (∀ c ∈ l, p c = false) → l.dropWhile p = l
  | [], _ => rfl
  | c :: cs, h => by
    rw [List.dropWhile_cons, h c (List.mem_cons_self c cs)]
    simp

/-- Stripping is the identity on whitespace-free text. -/
theorem trimChars_eq_self (l : List Char)
    (h : ∀ c ∈ l, c.isWhitespace = false) : trimChars l = l := by
  unfold trimChars
  rw [dropWhile_eq_self _ l h,
    dropWhile_eq_self _ l.reverse (fun c hc => h c (List.mem_reverse.mp hc)),
    List.reverse_reverse]

/-- `splitFirst` finds nothing when no character matches. -/
theorem splitFirst_none (p : Char → Bool) :
    ∀ l : List Char, (∀ c ∈ l, p c = false) → splitFirst p l = (l, none)
  | [], _ => rfl
  | c :: cs, h => by
    rw [splitFirst, h c (List.mem_cons_self c cs)]
    simp [splitFirst_none p cs (fun c' hc' => h c' (List.mem_cons_of_mem c hc'))]

/-- Digit characters are neither separators nor decimal points. -/
theorem natDigitChars_not_special (m : Nat) :
    ∀ c ∈ natDigitChars m, c ≠ ',' ∧ c ≠ '.' ∧ c ≠ '-' ∧ c ≠ '+' ∧
      c.isWhitespace = false ∧ isExpMark c = false ∧ isDig c = true := by
  intro c hc
  obtain ⟨d, hd, he⟩ := natDigitChars_mem m c hc
  subst he
  obtain ⟨p1, p2, p3, p4, p5, p6, p7, -⟩ := digitChar_props d hd
  exact ⟨p6, p5, p3, p4, p2, p7, p1⟩

/-- Characters of the grouped digit chunks come from the digit string. -/
theorem mem_group3_chunks (l : List Char) (m : List Char)
    (hm : m ∈ ((chunk3 l.reverse).map List.reverse).reverse) (c : Char)
    (hc : c ∈ m) : c ∈ l := by
  have h1 : c ∈ (((chunk3 l.reverse).map List.reverse).reverse).flatten :=
    List.mem_flatten.mpr ⟨m, hm, hc⟩
  rw [flatten_rev_map_rev, chunk3_flatten, List.reverse_reverse] at h1
  exact h1

/-- Stripping the period separators out of the formatted integer recovers
the sign and plain digit string. -/
theorem fmt_strip_digits (n : Int) :
    (pyReplace (intCommaChars n) [','] ['.']).filter (fun c => c ≠ '.') =
      (if n < 0 then ['-'] else []) ++ natDigitChars n.natAbs := by
  have hdig := natDigitChars_not_special n.natAbs
  rw [pyReplace_single]
  unfold intCommaChars group3
  rw [List.map_append, List.filter_append]
  have hsign : (((if n < 0 then ['-'] else [] : List Char)).map
      (fun c => if c = ',' then '.' else c)).filter (fun c => c ≠ '.') =
      (if n < 0 then ['-'] else []) := by
    by_cases h : n < 0 <;> simp [h]
  rw [hsign]
  congr 1
  set M := ((chunk3 (natDigitChars n.natAbs).reverse).map List.reverse).reverse
    with hM
  have hMchars : ∀ m ∈ M, ∀ c ∈ m, c ∈ natDigitChars n.natAbs := by
    intro m hm c hc
    exact mem_group3_chunks (natDigitChars n.natAbs) m (hM ▸ hm) c hc
  rw [joinSep_map]
  have hsep' : (if (',' : Char) = ',' then ('.' : Char) else ',') = '.' := by simp
  have hMid : M.map (List.map (fun c => if c = ',' then '.' else c)) = M := by
    have hin : ∀ m ∈ M, (List.map (fun c => if c = ',' then '.' else c) m) = m := by
      intro m hm
      have hpt : ∀ c ∈ m, (if c = ',' then '.' else c) = c := by
        intro c hc
        have := (hdig c (hMchars m hm c hc)).1
        simp [this]
      exact (List.map_congr_left hpt).trans (List.map_id m)
    exact (List.map_congr_left hin).trans (List.map_id M)
  rw [hsep', hMid]
  rw [joinSep_filter '.' M (fun m hm c hc => (hdig c (hMchars m hm c hc)).2.1)]
  rw [hM, flatten_rev_map_rev, chunk3_flatten, List.reverse_reverse]

/-- The stripped sign-and-digits string parses back to the integer. -/
theorem pyFloatChars_intChars (n : Int) :
    pyFloatChars ((if n < 0 then ['-'] else []) ++ natDigitChars n.natAbs) =
      some ((n : Rat)) := by
  have hdig := natDigitChars_not_special n.natAbs
  have hws : ∀ c ∈ (if n < 0 then ['-'] else []) ++ natDigitChars n.natAbs,
      c.isWhitespace = false := by
    intro c hc
    rcases List.mem_append.mp hc with h | h
    · by_cases hn : n < 0
      · rw [if_pos hn] at h
        have : c = '-' := by simpa using h
        rw [this]
        decide
      · rw [if_neg hn] at h
        simp at h
    · exact (hdig c h).2.2.2.2.1
  have htrim := trimChars_eq_self _ hws
  have hexp : splitFirst isExpMark (natDigitChars n.natAbs) =
      (natDigitChars n.natAbs, none) :=
    splitFirst_none _ _ (fun c hc => (hdig c hc).2.2.2.2.2.1)
  have hdot : splitFirst (fun c => decide (c = '.')) (natDigitChars n.natAbs) =
      (natDigitChars n.natAbs, none) :=
    splitFirst_none _ _ (fun c hc => by simpa using (hdig c hc).2.1)
  have hall : (natDigitChars n.natAbs).all isDig = true :=
    List.all_eq_true.mpr (fun c hc => (hdig c hc).2.2.2.2.2.2)
  have hne := natDigitChars_ne_nil n.natAbs
  have hval : charsToNat (natDigitChars n.natAbs) = n.natAbs :=
    charsToNat_natDigitChars n.natAbs
  have hsgn : splitSignC ((if n < 0 then ['-'] else []) ++ natDigitChars n.natAbs) =
      (decide (n < 0), natDigitChars n.natAbs) := by
    by_cases hn : n < 0
    · rw [if_pos hn]
      simp [splitSignC, hn]
    · rw [if_neg hn]
      rcases hD : natDigitChars n.natAbs with _ | ⟨c, t⟩
      · exact absurd hD hne
      · have hcd : c ∈ natDigitChars n.natAbs := by rw [hD]; exact List.mem_cons_self c t
        have h1 := (hdig c hcd).2.2.1
        have h2 := (hdig c hcd).2.2.2.1
        simp [splitSignC, h1, h2, hn]
  unfold pyFloatChars
  simp only [htrim, hsgn, hexp, hdot, Option.getD_none, List.append_nil]
  rw [if_pos ⟨hall, hne⟩]
  simp only [if_true]
  unfold signedVal
  rw [hval]
  by_cases hn : n < 0
  · have h1 : -((n.natAbs : Int)) = n := by omega
    have h2 : ((n : Rat)) ≤ 0 := by exact_mod_cast hn.le
    simp [hn, h1, abs_of_nonpos h2]
  · have h1 : ((n.natAbs : Int)) = n := by omega
    simp [hn, h1]

/-- Python's `round` is the identity on integers. -/
theorem pyRound_intCast (n : Int) : pyRound ((n : Rat)) = n := by
  unfold pyRound
  rw [Int.floor_intCast]
  norm_num

/-- C7. `fmt_idr` round-trips: formatting a numeric value, stripping the
period group separators, parsing the result back as a number and formatting
again yields the same string as the first formatting. -/
theorem claim7_roundtrip (q : Rat) :
    ∃ m : Rat,
      pyFloat (String.mk ((chars (fmt_idr (.vnum q))).filter (fun c => c ≠ '.')))
        = some m ∧
      fmt_idr (.vnum m) = fmt_idr (.vnum q) := by
  refine ⟨((pyRound q : Int) : Rat), ?_, ?_⟩
  · have hfmt : fmt_idr (.vnum q) =
        String.mk (pyReplace (intCommaChars (pyRound q)) [','] ['.']) := rfl
    rw [hfmt]
    have hchars : chars (String.mk (pyReplace (intCommaChars (pyRound q)) [','] ['.']))
        = pyReplace (intCommaChars (pyRound q)) [','] ['.'] := rfl
    rw [hchars, fmt_strip_digits]
    have hwrap : pyFloat (String.mk ((if pyRound q < 0 then ['-'] else [])
          ++ natDigitChars (pyRound q).natAbs))
        = pyFloatChars ((if pyRound q < 0 then ['-'] else [])
          ++ natDigitChars (pyRound q).natAbs) := rfl
    rw [hwrap, pyFloatChars_intChars]
  · show String.mk (pyReplace (intCommaChars (pyRound ((pyRound q : Int) : Rat)))
        [','] ['.'])
      = String.mk (pyReplace (intCommaChars (pyRound q)) [','] ['.'])
    rw [pyRound_intCast]

/-- C5 (amended). `fmt_idr` returns a string on every in-range input:
numeric input within the double range — a string parsing as a decimal
numeral, an int, or a finite float — is rounded (half-to-even) to a whole
unit and grouped with period separators, so that stripping the periods
recovers exactly the sign and decimal digits of the rounded value;
non-numeric or missing input is returned as Python's `str(value)`
unchanged — in particular it is NOT trimmed and `None` renders as
`"None"`.  It is NOT total, however: `except (ValueError, TypeError)` does
not catch `OverflowError`, so a numeral that overflows to infinity (such
as `"1e400"`), an infinite float, or an int beyond the double range raises
to the caller. -/
theorem claim5_fmt_idr :
    (∀ s q, pyFloatDouble s = some (.finite q) →
      fmt_idr_checked (.vstr s) = .ok (fmt_idr (.vnum q))) ∧
    (∀ s b, pyFloatDouble s = some (.infty b) →
      fmt_idr_checked (.vstr s) = .error "OverflowError") ∧
    (∀ s, pyFloatDouble s = none → fmt_idr_checked (.vstr s) = .ok s) ∧
    fmt_idr_checked .vnone = .ok "None" ∧
    (∀ q, fmt_idr_checked (.vfloat (.finite q)) = .ok (fmt_idr (.vnum q))) ∧
    (∀ b, fmt_idr_checked (.vfloat (.infty b)) = .error "OverflowError") ∧
    (∀ n : Int, OVERFLOW_BOUND ≤ (n : Rat) ∨ (n : Rat) ≤ -OVERFLOW_BOUND →
      fmt_idr_checked (.vint n) = .error "OverflowError") ∧
    (∀ n : Int, ¬(OVERFLOW_BOUND ≤ (n : Rat) ∨ (n : Rat) ≤ -OVERFLOW_BOUND) →
      fmt_idr_checked (.vint n) = .ok (fmt_idr (.vnum ((n : Int) : Rat)))) ∧
    (∀ q, (chars (fmt_idr (.vnum q))).filter (fun c => c ≠ '.') =
      (if pyRound q < 0 then ['-'] else []) ++ natDigitChars (pyRound q).natAbs) := by
  refine ⟨?_, ?_, ?_, rfl, fun q => rfl, fun b => rfl, ?_, ?_, ?_⟩
  · intro s q h
    simp only [fmt_idr_checked, h, fmtFinite_eq]
  · intro s b h
    simp only [fmt_idr_checked, h]
  · intro s h
    simp only [fmt_idr_checked, h]
  · intro n h
    simp only [fmt_idr_checked]
    rw [if_pos h]
  · intro n h
    simp only [fmt_idr_checked]
    rw [if_neg h, fmtFinite_eq]
  · intro q
    have h1 : fmt_idr (.vnum q) =
        String.mk (pyReplace (intCommaChars (pyRound q)) [','] ['.']) := rfl
    rw [h1]
    have hc : chars (String.mk (pyReplace (intCommaChars (pyRound q)) [','] ['.']))
        = pyReplace (intCommaChars (pyRound q)) [','] ['.'] := rfl
    rw [hc, fmt_strip_digits]

/-- Counterexample for C5 as stated: `fmt_idr` is not total and does not
trim.  On `"1e400"` — an ordinary decimal numeral — `float` yields `inf`
and `round(inf)` raises `OverflowError`, which `except (ValueError,
TypeError)` does not catch, so the call raises; and on the non-numeric
`" x "` the fallback returns `str(value)` verbatim, not its trimmed form
`"x"`. -/
theorem claim5_counterexample :
    fmt_idr_checked (.vstr "1e400") = .error "OverflowError" ∧
    fmt_idr (.vstr " x ") = " x " ∧ pyStrip " x " = "x" ∧
    fmt_idr (.vstr " x ") ≠ pyStrip " x " := by
  refine ⟨?_, by decide, by decide, by decide⟩
  have hparse : pyFloat "1e400" =
      some ((((1 : Int) : Rat) / (10 : Rat) ^ (0 : Nat))
        * (10 : Rat) ^ ((400 : Int))) := rfl
  have hover : OVERFLOW_BOUND ≤ (((1 : Int) : Rat) / (10 : Rat) ^ (0 : Nat))
      * (10 : Rat) ^ ((400 : Int)) := by
    unfold OVERFLOW_BOUND
    rw [show ((400 : Int)) = ((400 : Nat) : Int) from rfl, zpow_natCast]
    norm_num
  have hpfd : pyFloatDouble "1e400" = some (.infty false) := by
    unfold pyFloatDouble
    simp only [hparse]
    rw [if_pos hover]
  simp [fmt_idr_checked, hpfd]

/-- Witness for C5: a finite float formats to a string, a non-numeric
string is echoed verbatim (untrimmed), `None` renders `"None"`, and the
formatted value's digits survive stripping the periods. -/
theorem claim5_witness :
    fmt_idr_checked (.vfloat (.finite 2500000)) = .ok (fmt_idr (.vnum 2500000)) ∧
    fmt_idr_checked (.vstr "abc") = .ok "abc" ∧
    fmt_idr_checked .vnone = .ok "None" ∧
    (chars (fmt_idr (.vnum 2500000))).filter (fun c => c ≠ '.') =
      (if pyRound 2500000 < 0 then ['-'] else [])
        ++ natDigitChars (pyRound 2500000).natAbs :=
  ⟨claim5_fmt_idr.2.2.2.2.1 2500000,
   claim5_fmt_idr.2.2.1 "abc" rfl,
   claim5_fmt_idr.2.2.2.1,
   claim5_fmt_idr.2.2.2.2.2.2.2.2 2500000⟩

/-- Witness for C10: a row with service `"Training"` present and no `Qty 3`
column at all — the quantity placeholder is the empty string and the line's
subtotal is 0. -/
theorem claim10_witness :
    dictLookup (qtyKey 3)
        (replacementsOf (fun _ => none)
          [("Service 3", some "Training"), ("Price 3", some "250000")])
      = some "" ∧
    ("" : String) ≠ "0" ∧
    lineSub [("Service 3", some "Training"), ("Price 3", some "250000")] 3 = 0 :=
  claim10_empty_qty (fun _ => none)
    [("Service 3", some "Training"), ("Price 3", some "250000")]
    3 (by decide) (by decide) (by decide) (by decide)
